import Mathlib

/-!
Verification of the `pasta` interactive shell recorder.

This file gives a shallow embedding, in Lean 4, of the parts of the
repository that the specification's claims talk about:

* `src/pasta/shell.py` — the `Typescript` segmenter (`Typescript.wrap`,
  `Typescript.addHandler`, the bounded action history);
* `src/pasta/pty.py` — the `PseudoTerminal.spool` supervisor: the
  select-set construction of the I/O loop, the termios save/restore flow,
  the exception/teardown flow, and the `Typescript` construction call;
* `src/pasta/cmd.py` — the application of the top-level CLI options to
  the configuration;
* `src/pasta/sessions.py` — `State.pop`.

Bytes are modelled as `List Nat` (one `Nat` per byte), wall-clock
instants as `Nat` passed explicitly to the functions that read the clock
(`datetime.utcnow()` in the source), and fallible paths as explicit
result types.
-/

namespace Pasta

/-- The three stream events of `src/pasta/shell.py` (`class Event`). -/
inductive Event where
  | STDIN
  | STDOUT
  | STDERR
deriving DecidableEq, Repr

/-- One completed command, from `src/pasta/actions.py` (`class Action`).
The `uuid` field is omitted (it is a fresh random identifier and no claim
mentions it); byte-string fields are `List Nat`, `time_started` is the
instant (`Nat`) passed to `wrap` when the command started, and
`time_elapsed` the difference of the two instants as in the source. -/
structure Action where
  prompt_ps1 : List Nat
  command_input : List Nat
  command_output : List Nat
  command_error : List Nat
  typescript : List Nat
  time_started : Nat
  time_elapsed : Int
deriving DecidableEq, Repr

/-- `collections.deque` append under a `maxlen` bound (used for
`self.actions = deque(maxlen=histsize)` in `Typescript.__init__`,
`src/pasta/shell.py` line 66): appending to a full deque discards from
the opposite end, i.e. the result keeps the last `cap` elements of
`xs ++ [x]`. -/
def dequeAppend (cap : Nat) (xs : List α) (x : α) : List α :=
  (xs ++ [x]).drop (xs.length + 1 - cap)

/-- The `Typescript` state of `src/pasta/shell.py` (`Typescript.__init__`,
lines 45-66): the EOF byte string, the history bound `histsize`, the five
roll-over buffers, the start instant, the bounded action history, and the
per-event handler chains. -/
structure Typescript where
  eof : List Nat
  histsize : Nat
  buf_i : List Nat
  buf_ps1 : List Nat
  buf_o : List Nat
  buf_e : List Nat
  buf_c : List Nat
  start_time : Nat
  actions : List Action
  handlers : Event → List (List Nat → List Nat)

/-- `Typescript.crlf = b"\r\n"` (`src/pasta/shell.py` line 43). -/
def crlf : List Nat := [13, 10]

/-- A fresh `Typescript` as produced by `Typescript.__init__`
(`src/pasta/shell.py` lines 45-66): empty buffers, empty history, no
handlers; `now` is the construction instant (`datetime.utcnow()`). -/
def Typescript.init (eof : List Nat) (histsize : Nat) (now : Nat) : Typescript :=
  { eof := eof
    histsize := histsize
    buf_i := []
    buf_ps1 := []
    buf_o := []
    buf_e := []
    buf_c := []
    start_time := now
    actions := []
    handlers := fun _ => [] }

/-- `Typescript.addHandler` (`src/pasta/shell.py` lines 68-69): append
the handler to the event's chain, preserving registration order. -/
def Typescript.addHandler (ts : Typescript) (e : Event)
    (h : List Nat → List Nat) : Typescript :=
  { ts with handlers := fun e2 => if e2 = e then ts.handlers e2 ++ [h] else ts.handlers e2 }

/-- The handler chain of `Typescript.wrap` (`src/pasta/shell.py` lines
82-84): each handler sees the previous one's output. -/
def applyChain (hs : List (List Nat → List Nat)) (b : List Nat) : List Nat :=
  hs.foldl (fun acc h => h acc) b

/-- The Action emission of `Typescript.wrap` (`src/pasta/shell.py` lines
89-107): build the Action from the current buffers, append it to the
bounded history, and reset the five buffers. -/
def Typescript.emitAction (ts : Typescript) (now : Nat) : Typescript :=
  let action : Action :=
    { prompt_ps1 := ts.buf_ps1
      command_input := ts.buf_i
      command_output := ts.buf_o
      command_error := ts.buf_e
      typescript := ts.buf_ps1 ++ ts.buf_i ++ ts.buf_c
      time_started := ts.start_time
      time_elapsed := (now : Int) - (ts.start_time : Int) }
  { ts with
    actions := dequeAppend ts.histsize ts.actions action
    buf_ps1 := []
    buf_i := []
    buf_o := []
    buf_e := []
    buf_c := [] }

/-- The tail of the STDIN case of `Typescript.wrap` (`src/pasta/shell.py`
lines 111-125): start-of-turn (reset `start_time` when all of `buf_i`,
`buf_ps1`, `buf_c` are empty) and classification (append to `buf_ps1`
when `buf_i` is empty, `buf_c` non-empty and `buf_c` does not end with
the EOF byte; otherwise append to `buf_i`). -/
def Typescript.stdinTail (ts : Typescript) (now : Nat) (b : List Nat) :
    Typescript × List Nat :=
  let ts1 :=
    if ts.buf_i = [] ∧ ts.buf_ps1 = [] ∧ ts.buf_c = [] then
      { ts with start_time := now }
    else ts
  if ts1.buf_i = [] ∧ ts1.buf_c ≠ [] ∧ ts1.eof.isSuffixOf ts1.buf_c = false then
    ({ ts1 with buf_ps1 := ts1.buf_ps1 ++ b }, b)
  else
    ({ ts1 with buf_i := ts1.buf_i ++ b }, b)

/-- `Typescript.wrap` (`src/pasta/shell.py` lines 81-151): run the bytes
through the handler chain for the event, then advance the segmenter state
machine; returns the updated state and the bytes returned to the caller.
`now` is the instant (`datetime.utcnow()`) at the time of the call. -/
def Typescript.wrap (ts : Typescript) (now : Nat) (event : Event) (b0 : List Nat) :
    Typescript × List Nat :=
  let b := applyChain (ts.handlers event) b0
  match event with
  | .STDIN =>
    if [10].isSuffixOf ts.buf_i = true ∧ ts.buf_c ≠ [] then
      let ts2 := ts.emitAction now
      if b = ts2.eof ++ crlf then (ts2, [])
      else ts2.stdinTail now b
    else ts.stdinTail now b
  | .STDOUT =>
    if ts.buf_i = [] ∧ b ≠ ts.eof then
      ({ ts with buf_ps1 := ts.buf_ps1 ++ b }, b)
    else
      ({ ts with buf_o := ts.buf_o ++ b, buf_c := ts.buf_c ++ b }, b)
  | .STDERR =>
    if ts.buf_i = [] then
      ({ ts with buf_ps1 := ts.buf_ps1 ++ b }, b)
    else
      ({ ts with buf_e := ts.buf_e ++ b, buf_c := ts.buf_c ++ b }, b)

/-- A sequence of `wrap` calls: each entry is the call instant, the event
and the incoming bytes. -/
def runWrap : Typescript → List (Nat × Event × List Nat) → Typescript
  | ts, [] => ts
  | ts, ev :: evs => runWrap (ts.wrap ev.1 ev.2.1 ev.2.2).1 evs

/-- `Interleaves o e c` : `c` is an order-preserving merge (interleaving)
of `o` and `e`. -/
inductive Interleaves : List Nat → List Nat → List Nat → Prop where
  | nil : Interleaves [] [] []
  | left (x : Nat) {o e c : List Nat} :
      Interleaves o e c → Interleaves (x :: o) e (x :: c)
  | right (x : Nat) {o e c : List Nat} :
      Interleaves o e c → Interleaves o (x :: e) (x :: c)

theorem interleaves_self_left (b : List Nat) : Interleaves b [] b := by
  induction b with
  | nil => exact .nil
  | cons x xs ih => exact .left x ih

theorem interleaves_self_right (b : List Nat) : Interleaves [] b b := by
  induction b with
  | nil => exact .nil
  | cons x xs ih => exact .right x ih

theorem Interleaves.append_left {o e c : List Nat} (h : Interleaves o e c)
    (b : List Nat) : Interleaves (o ++ b) e (c ++ b) := by
  induction h with
  | nil => simpa using interleaves_self_left b
  | left x _ ih => exact .left x ih
  | right x _ ih => exact .right x ih

theorem Interleaves.append_right {o e c : List Nat} (h : Interleaves o e c)
    (b : List Nat) : Interleaves o (e ++ b) (c ++ b) := by
  induction h with
  | nil => simpa using interleaves_self_right b
  | left x _ ih => exact .left x ih
  | right x _ ih => exact .right x ih

/-- The per-Action facts maintained by the segmenter: the typescript
splits as prompt ++ input ++ merged-output, the input ends in a newline
byte and is non-empty, the typescript is non-empty, and it strictly
extends prompt ++ input (the merged segment was non-empty at emission). -/
def ActionOk (a : Action) : Prop :=
  (∃ c, a.typescript = a.prompt_ps1 ++ a.command_input ++ c ∧
      Interleaves a.command_output a.command_error c) ∧
  [10].isSuffixOf a.command_input = true ∧
  a.command_input ≠ [] ∧
  a.typescript ≠ [] ∧
  a.prompt_ps1.length + a.command_input.length < a.typescript.length

/-- The segmenter invariant: the combined buffer `buf_c` is an
order-preserving merge of `buf_o` and `buf_e`, and every Action in the
history satisfies `ActionOk`. -/
def TSInv (ts : Typescript) : Prop :=
  Interleaves ts.buf_o ts.buf_e ts.buf_c ∧ ∀ a ∈ ts.actions, ActionOk a

theorem mem_dequeAppend {a x : α} {cap : Nat} {xs : List α}
    (h : a ∈ dequeAppend cap xs x) : a ∈ xs ∨ a = x := by
  unfold dequeAppend at h
  have h2 := List.mem_of_mem_drop h
  rcases List.mem_append.mp h2 with h3 | h3
  · exact Or.inl h3
  · exact Or.inr (List.mem_singleton.mp h3)

theorem stdinTail_buf_o (ts : Typescript) (now : Nat) (b : List Nat) :
    (ts.stdinTail now b).1.buf_o = ts.buf_o := by
  simp only [Typescript.stdinTail]
  split_ifs <;> rfl

theorem stdinTail_buf_e (ts : Typescript) (now : Nat) (b : List Nat) :
    (ts.stdinTail now b).1.buf_e = ts.buf_e := by
  simp only [Typescript.stdinTail]
  split_ifs <;> rfl

theorem stdinTail_buf_c (ts : Typescript) (now : Nat) (b : List Nat) :
    (ts.stdinTail now b).1.buf_c = ts.buf_c := by
  simp only [Typescript.stdinTail]
  split_ifs <;> rfl

theorem stdinTail_actions (ts : Typescript) (now : Nat) (b : List Nat) :
    (ts.stdinTail now b).1.actions = ts.actions := by
  simp only [Typescript.stdinTail]
  split_ifs <;> rfl

theorem stdinTail_histsize (ts : Typescript) (now : Nat) (b : List Nat) :
    (ts.stdinTail now b).1.histsize = ts.histsize := by
  simp only [Typescript.stdinTail]
  split_ifs <;> rfl

theorem stdinTail_inv {ts : Typescript} (h : TSInv ts) (now : Nat) (b : List Nat) :
    TSInv (ts.stdinTail now b).1 := by
  refine ⟨?_, ?_⟩
  · rw [stdinTail_buf_o, stdinTail_buf_e, stdinTail_buf_c]
    exact h.1
  · rw [stdinTail_actions]
    exact h.2

theorem emitAction_inv {ts : Typescript} (h : TSInv ts) (now : Nat)
    (hnl : [10].isSuffixOf ts.buf_i = true) (hc : ts.buf_c ≠ []) :
    TSInv (ts.emitAction now) := by
  have hsuf : [10] <:+ ts.buf_i := List.isSuffixOf_iff_suffix.mp hnl
  have hi : ts.buf_i ≠ [] := by
    intro hnil
    rw [hnil] at hsuf
    exact absurd (List.eq_nil_of_suffix_nil hsuf) (by simp)
  have hok : ActionOk
      { prompt_ps1 := ts.buf_ps1
        command_input := ts.buf_i
        command_output := ts.buf_o
        command_error := ts.buf_e
        typescript := ts.buf_ps1 ++ ts.buf_i ++ ts.buf_c
        time_started := ts.start_time
        time_elapsed := (now : Int) - (ts.start_time : Int) } := by
    refine ⟨⟨ts.buf_c, by simp, h.1⟩, hnl, hi, ?_, ?_⟩
    · simp [hi]
    · have hclen : 0 < ts.buf_c.length := List.length_pos.mpr hc
      simp only [List.length_append]
      omega
  refine ⟨by exact .nil, ?_⟩
  intro a ha
  simp only [Typescript.emitAction] at ha
  rcases mem_dequeAppend ha with h2 | h2
  · exact h.2 a h2
  · rw [h2]
    exact hok

theorem wrap_inv {ts : Typescript} (h : TSInv ts) (now : Nat) (e : Event)
    (b : List Nat) : TSInv (ts.wrap now e b).1 := by
  cases e with
  | STDIN =>
    simp only [Typescript.wrap]
    split_ifs with h1 h2
    · exact emitAction_inv h now h1.1 h1.2
    · exact stdinTail_inv (emitAction_inv h now h1.1 h1.2) now _
    · exact stdinTail_inv h now _
  | STDOUT =>
    simp only [Typescript.wrap]
    split_ifs with h1
    · exact ⟨h.1, h.2⟩
    · exact ⟨h.1.append_left _, h.2⟩
  | STDERR =>
    simp only [Typescript.wrap]
    split_ifs with h1
    · exact ⟨h.1, h.2⟩
    · exact ⟨h.1.append_right _, h.2⟩

theorem runWrap_inv {ts : Typescript} (h : TSInv ts)
    (evs : List (Nat × Event × List Nat)) : TSInv (runWrap ts evs) := by
  induction evs generalizing ts with
  | nil => exact h
  | cons ev evs ih => exact ih (wrap_inv h ev.1 ev.2.1 ev.2.2)

theorem init_inv (eof : List Nat) (histsize now : Nat) :
    TSInv (Typescript.init eof histsize now) :=
  ⟨.nil, by intro a ha; simp [Typescript.init] at ha⟩

theorem dequeAppend_length (cap : Nat) (xs : List α) (x : α) :
    (dequeAppend cap xs x).length ≤ max cap (xs.length) := by
  simp only [dequeAppend, List.length_drop, List.length_append, List.length_singleton]
  omega

theorem emitAction_histsize (ts : Typescript) (now : Nat) :
    (ts.emitAction now).histsize = ts.histsize := rfl

theorem wrap_histsize (ts : Typescript) (now : Nat) (e : Event) (b : List Nat) :
    (ts.wrap now e b).1.histsize = ts.histsize := by
  cases e <;> simp only [Typescript.wrap] <;> split_ifs <;>
    simp [stdinTail_histsize, emitAction_histsize]

theorem wrap_actions_length {ts : Typescript} (h : ts.actions.length ≤ ts.histsize)
    (now : Nat) (e : Event) (b : List Nat) :
    (ts.wrap now e b).1.actions.length ≤ (ts.wrap now e b).1.histsize := by
  cases e with
  | STDIN =>
    simp only [Typescript.wrap]
    split_ifs with h1 h2
    · simp only [Typescript.emitAction]
      have := dequeAppend_length ts.histsize ts.actions
        { prompt_ps1 := ts.buf_ps1
          command_input := ts.buf_i
          command_output := ts.buf_o
          command_error := ts.buf_e
          typescript := ts.buf_ps1 ++ ts.buf_i ++ ts.buf_c
          time_started := ts.start_time
          time_elapsed := (now : Int) - (ts.start_time : Int) }
      omega
    · rw [stdinTail_actions, stdinTail_histsize]
      simp only [Typescript.emitAction]
      have := dequeAppend_length ts.histsize ts.actions
        { prompt_ps1 := ts.buf_ps1
          command_input := ts.buf_i
          command_output := ts.buf_o
          command_error := ts.buf_e
          typescript := ts.buf_ps1 ++ ts.buf_i ++ ts.buf_c
          time_started := ts.start_time
          time_elapsed := (now : Int) - (ts.start_time : Int) }
      omega
    · rw [stdinTail_actions, stdinTail_histsize]
      exact h
  | STDOUT =>
    simp only [Typescript.wrap]
    split_ifs <;> exact h
  | STDERR =>
    simp only [Typescript.wrap]
    split_ifs <;> exact h

theorem runWrap_actions_length {ts : Typescript} (h : ts.actions.length ≤ ts.histsize)
    (evs : List (Nat × Event × List Nat)) :
    (runWrap ts evs).actions.length ≤ (runWrap ts evs).histsize := by
  induction evs generalizing ts with
  | nil => exact h
  | cons ev evs ih => exact ih (wrap_actions_length h ev.1 ev.2.1 ev.2.2)

theorem runWrap_histsize (ts : Typescript) (evs : List (Nat × Event × List Nat)) :
    (runWrap ts evs).histsize = ts.histsize := by
  induction evs generalizing ts with
  | nil => rfl
  | cons ev evs ih =>
    rw [runWrap, ih, wrap_histsize]

/-- A sample `wrap` trace: the user types `ls` followed by a newline, the
child prints one output byte, then the user's next keystroke closes the
Action. -/
def sampleTrace : List (Nat × Event × List Nat) :=
  [(0, Event.STDIN, [108, 115, 10]), (1, Event.STDOUT, [97]), (2, Event.STDIN, [120])]

/-- The Action that `sampleTrace` emits. -/
def sampleAction : Action :=
  { prompt_ps1 := []
    command_input := [108, 115, 10]
    command_output := [97]
    command_error := []
    typescript := [108, 115, 10, 97]
    time_started := 0
    time_elapsed := 2 }

/-- Claim C2: for every Action emitted by `Typescript.wrap` (any sequence
of `wrap` calls starting from a fresh `Typescript`), the `typescript`
field equals `prompt_ps1 ++ command_input ++ c` where `c` is an
order-preserving interleaving of `command_output` and `command_error`. -/
theorem wrap_typescript_reconstitution (eof : List Nat) (hist start : Nat)
    (evs : List (Nat × Event × List Nat)) (a : Action)
    (ha : a ∈ (runWrap (Typescript.init eof hist start) evs).actions) :
    ∃ c, a.typescript = a.prompt_ps1 ++ a.command_input ++ c ∧
      Interleaves a.command_output a.command_error c :=
  ((runWrap_inv (init_inv eof hist start) evs).2 a ha).1

/-- Witness for C2: `sampleTrace` emits `sampleAction`, which satisfies
the reconstitution property. -/
theorem wrap_typescript_reconstitution_witness :
    ∃ c, sampleAction.typescript =
        sampleAction.prompt_ps1 ++ sampleAction.command_input ++ c ∧
      Interleaves sampleAction.command_output sampleAction.command_error c :=
  wrap_typescript_reconstitution [4] 5 0 sampleTrace sampleAction (by decide)

/-- Claim C9: every Action emitted by `Typescript.wrap` has a
`command_input` ending in a newline byte, was emitted only while `buf_c`
was non-empty (so the typescript strictly extends prompt ++ input), and
consequently has a non-empty `command_input` and a non-empty
`typescript`. -/
theorem wrap_action_input_newline (eof : List Nat) (hist start : Nat)
    (evs : List (Nat × Event × List Nat)) (a : Action)
    (ha : a ∈ (runWrap (Typescript.init eof hist start) evs).actions) :
    [10].isSuffixOf a.command_input = true ∧ a.command_input ≠ [] ∧
      a.typescript ≠ [] ∧
      a.prompt_ps1.length + a.command_input.length < a.typescript.length :=
  ((runWrap_inv (init_inv eof hist start) evs).2 a ha).2

/-- Witness for C9 at `sampleTrace`. -/
theorem wrap_action_input_newline_witness :
    [10].isSuffixOf sampleAction.command_input = true ∧
      sampleAction.command_input ≠ [] ∧ sampleAction.typescript ≠ [] ∧
      sampleAction.prompt_ps1.length + sampleAction.command_input.length <
        sampleAction.typescript.length :=
  wrap_action_input_newline [4] 5 0 sampleTrace sampleAction (by decide)

/-- Claim C7: across any sequence of `wrap` calls the Action history
never holds more than `histsize` Actions, and appending to a full history
evicts exactly the oldest Action, preserving the order of the rest
(`dequeAppend hist acts a = acts.drop 1 ++ [a]`). -/
theorem history_bounded_fifo (eof : List Nat) (hist start : Nat)
    (evs : List (Nat × Event × List Nat)) :
    (runWrap (Typescript.init eof hist start) evs).actions.length ≤ hist ∧
    ∀ (acts : List Action) (a : Action), acts.length = hist → 0 < hist →
      dequeAppend hist acts a = acts.drop 1 ++ [a] := by
  constructor
  · have h1 := @runWrap_actions_length
      (Typescript.init eof hist start) (by simp [Typescript.init]) evs
    rwa [runWrap_histsize] at h1
  · intro acts a hlen hpos
    unfold dequeAppend
    have h1 : acts.length + 1 - hist = 1 := by omega
    rw [h1]
    rcases acts with _ | ⟨x, xs⟩
    · simp at hlen
      omega
    · simp

/-- Witness for C7: a run with `histsize = 2`, plus a concrete FIFO
eviction on a full history of two Actions. -/
theorem history_bounded_fifo_witness :
    (runWrap (Typescript.init [4] 2 0) sampleTrace).actions.length ≤ 2 ∧
    dequeAppend 2 [sampleAction, sampleAction] sampleAction =
      [sampleAction, sampleAction].drop 1 ++ [sampleAction] :=
  ⟨(history_bounded_fifo [4] 2 0 sampleTrace).1,
   (history_bounded_fifo [4] 2 0 sampleTrace).2 [sampleAction, sampleAction]
     sampleAction (by decide) (by decide)⟩

/-- Counterexample for C3 as stated: on a fresh `Typescript` (empty
buffers) a STDIN `wrap` call whose bytes equal `eof ++ crlf` is NOT
consumed: the bytes are returned unchanged and appended to `buf_i`,
because the EOF check only runs inside the Action-boundary branch. -/
theorem wrap_eof_crlf_not_consumed_fresh :
    ((Typescript.init [4] 10 0).wrap 1 Event.STDIN ([4] ++ crlf)).2 ≠ [] ∧
    ((Typescript.init [4] 10 0).wrap 1 Event.STDIN ([4] ++ crlf)).1.buf_i =
      [4, 13, 10] := by
  constructor
  · decide
  · decide

/-- Claim C3 (amended): when `wrap` is called with STDIN at an Action
boundary — `buf_i` ends with a newline and `buf_c` is non-empty — and the
bytes (unchanged by the handler chain, here empty) equal the EOF byte
followed by CRLF, then after the boundary Action is emitted the bytes are
consumed: the call returns the empty byte string and all five buffers are
left empty. -/
theorem wrap_eof_crlf_consumed (ts : Typescript) (now : Nat) (b : List Nat)
    (hnl : [10].isSuffixOf ts.buf_i = true) (hc : ts.buf_c ≠ [])
    (hh : ts.handlers Event.STDIN = []) (hb : b = ts.eof ++ crlf) :
    (ts.wrap now Event.STDIN b).2 = [] ∧
    (ts.wrap now Event.STDIN b).1.buf_i = [] ∧
    (ts.wrap now Event.STDIN b).1.buf_ps1 = [] ∧
    (ts.wrap now Event.STDIN b).1.buf_o = [] ∧
    (ts.wrap now Event.STDIN b).1.buf_e = [] ∧
    (ts.wrap now Event.STDIN b).1.buf_c = [] := by
  subst hb
  have hchain : applyChain (ts.handlers Event.STDIN) (ts.eof ++ crlf) = ts.eof ++ crlf := by
    rw [hh]
    rfl
  have hcond : ([10].isSuffixOf ts.buf_i = true ∧ ts.buf_c ≠ []) := ⟨hnl, hc⟩
  simp only [Typescript.wrap, hchain, if_pos hcond]
  rw [if_pos (show ts.eof ++ crlf = (ts.emitAction now).eof ++ crlf from rfl)]
  exact ⟨rfl, rfl, rfl, rfl, rfl, rfl⟩

/-- A `Typescript` sitting at an Action boundary: the input buffer ends
with a newline and output has been observed. -/
def boundaryTS : Typescript :=
  { Typescript.init [4] 10 0 with buf_i := [108, 115, 10], buf_o := [97], buf_c := [97] }

/-- Witness for C3 (amended) at `boundaryTS`. -/
theorem wrap_eof_crlf_consumed_witness :
    (boundaryTS.wrap 3 Event.STDIN [4, 13, 10]).2 = [] ∧
    (boundaryTS.wrap 3 Event.STDIN [4, 13, 10]).1.buf_i = [] ∧
    (boundaryTS.wrap 3 Event.STDIN [4, 13, 10]).1.buf_ps1 = [] ∧
    (boundaryTS.wrap 3 Event.STDIN [4, 13, 10]).1.buf_o = [] ∧
    (boundaryTS.wrap 3 Event.STDIN [4, 13, 10]).1.buf_e = [] ∧
    (boundaryTS.wrap 3 Event.STDIN [4, 13, 10]).1.buf_c = [] :=
  wrap_eof_crlf_consumed boundaryTS 3 [4, 13, 10] (by decide) (by decide) rfl rfl

/-! ### C1 — the `Typescript` construction call in `spool`

`src/pasta/pty.py` line 382 calls
`shell.Typescript(self.config, eof=bytes([eof]), logger=self.logger)`.
`Typescript.__init__` (`src/pasta/shell.py` lines 45-51) has parameters
`(eof, histsize, ps1, logger)` — it takes no config argument. We embed
CPython's argument-binding rule for a call with some positional arguments
and some keyword arguments. -/

/-- Result of binding a Python call's arguments to a parameter list. -/
inductive BindResult where
  | ok
  | multipleValues (kw : String)
  | unexpectedKeyword (kw : String)
  | tooManyPositional
deriving DecidableEq, Repr

/-- CPython argument binding: the first `npos` parameters are bound
positionally; a keyword argument that names a positionally-bound
parameter raises `TypeError: got multiple values for argument ...`; a
keyword that names no parameter raises
`TypeError: unexpected keyword argument`. -/
def bindCall (params : List String) (npos : Nat) (kwargs : List String) : BindResult :=
  if params.length < npos then .tooManyPositional
  else
    match kwargs.find? (fun kw => (params.take npos).contains kw) with
    | some kw => .multipleValues kw
    | none =>
      match kwargs.find? (fun kw => !params.contains kw) with
      | some kw => .unexpectedKeyword kw
      | none => .ok

/-- The parameters of `Typescript.__init__` after `self`
(`src/pasta/shell.py` lines 45-51). -/
def typescriptInitParams : List String := ["eof", "histsize", "ps1", "logger"]

/-- The argument shape of the construction call at `src/pasta/pty.py`
line 382: one positional argument (`self.config`) and the keyword
arguments `eof` and `logger`. -/
def spoolTypescriptCall : BindResult :=
  bindCall typescriptInitParams 1 ["eof", "logger"]

/-- Claim C1 (code bug): the `Typescript` construction inside `spool`
cannot succeed — the positional `self.config` binds to the `eof`
parameter, which is also passed by keyword, so the call raises
`TypeError: got multiple values for argument 'eof'` instead of yielding a
Typescript (and `histsize` is never passed at all). -/
theorem spool_typescript_construction_raises :
    spoolTypescriptCall = BindResult.multipleValues "eof" ∧
    "histsize" ∉ ["eof", "logger"] := by
  constructor
  · rfl
  · decide

/-! ### C5 — the select read/write sets of the I/O loop

`src/pasta/pty.py` lines 406-428 build `rfds`/`wfds` each iteration:
the real stdin is added when `len(buf_i) < waterlevel`, the pty master
when `len(buf_p) < waterlevel`, while the child's stdout and stderr pipes
are ALWAYS added (when captured) with no buffer check; the master is
added to the writers when `len(buf_i) > 0`. -/

/-- The four descriptors of the multiplexer loop. -/
inductive FDesc where
  | stdinFd
  | ptmFd
  | coutFd
  | cerrFd
deriving DecidableEq, Repr

/-- The read set of one loop iteration (`src/pasta/pty.py` lines
406-424). `bufO`/`bufE` are the stdout/stderr buffers of the loop; the
source never consults them here. `hasStdout`/`hasStderr` model
`proc.stdout is not None` / `proc.stderr is not None`. -/
def buildRfds (bufI bufP bufO bufE : List Nat) (waterlevel : Nat)
    (hasStdout hasStderr : Bool) : List FDesc :=
  (if bufI.length < waterlevel then [FDesc.stdinFd] else []) ++
  (if bufP.length < waterlevel then [FDesc.ptmFd] else []) ++
  (if hasStdout then [FDesc.coutFd] else []) ++
  (if hasStderr then [FDesc.cerrFd] else [])

/-- The write set of one loop iteration (`src/pasta/pty.py` lines
426-428). -/
def buildWfds (bufI : List Nat) : List FDesc :=
  if 0 < bufI.length then [FDesc.ptmFd] else []

/-- Counterexample for C5 as stated: with `waterlevel = 1` and the child
stdout buffer `buf_o = [97]` already at the waterlevel, the child stdout
descriptor is still added to the read set — stdout (and stderr) are not
gated on their buffers. -/
theorem mux_readset_claim_false :
    FDesc.coutFd ∈ buildRfds [] [] [97] [] 1 true true ∧
    ¬ (([97] : List Nat).length < 1) := by
  constructor
  · decide
  · decide

/-- Claim C5 (amended): in every iteration, real stdin is in the read set
iff `buf_i` is below waterlevel and the pty master iff `buf_p` is below
waterlevel, while the child stdout/stderr descriptors are in the read set
iff they are captured (regardless of `buf_o`/`buf_e`); the master is in
the write set iff `buf_i` is non-empty. -/
theorem mux_readset_gating (bufI bufP bufO bufE : List Nat) (wl : Nat)
    (so se : Bool) :
    (FDesc.stdinFd ∈ buildRfds bufI bufP bufO bufE wl so se ↔ bufI.length < wl) ∧
    (FDesc.ptmFd ∈ buildRfds bufI bufP bufO bufE wl so se ↔ bufP.length < wl) ∧
    (FDesc.coutFd ∈ buildRfds bufI bufP bufO bufE wl so se ↔ so = true) ∧
    (FDesc.cerrFd ∈ buildRfds bufI bufP bufO bufE wl so se ↔ se = true) ∧
    (FDesc.ptmFd ∈ buildWfds bufI ↔ bufI ≠ []) := by
  simp only [buildRfds, buildWfds, List.mem_append]
  refine ⟨?_, ?_, ?_, ?_, ?_⟩ <;> split_ifs <;>
    simp_all [List.length_pos, Ne, List.eq_nil_iff_forall_not_mem]

/-! ### C4 — the exception path of `spool`

`src/pasta/pty.py` lines 503-531: an exception raised inside the `try`
block (in particular one thrown into the generator at the `yield`, i.e.
raised by the caller's block, or raised by the I/O loop body) is caught by
`except BaseException`, which kills the child and does NOT re-raise; the
`finally` block then waits for the child, restores the real stdin termios
when the local `restore` is true, and closes the slave then the master.
No statement restores the SIGWINCH handler. Because the generator then
completes normally, `contextlib._GeneratorContextManager.__exit__`
(which ran `gen.throw(exc)`) receives `StopIteration` and suppresses the
exception, so the caller of `spool` sees nothing re-raised. The local
`restore` is only assigned before the `yield` inside the echo branch at
lines 315-322; when that branch was not taken and the caller's block
raises, `if restore:` at line 523 raises `NameError` instead, and that
`NameError` (not the original exception) escapes. -/

/-- The teardown steps of `spool`'s `except`/`finally` blocks, plus the
step the specification expects but the source never performs
(`restoreSigwinch`). -/
inductive TDStep where
  | killChild
  | waitChild
  | restoreStdin
  | closePts
  | closePtm
  | restoreSigwinch
deriving DecidableEq, Repr

/-- What the caller of `spool` observes after the exception path. -/
inductive SpoolOutcome where
  | suppressed
  | nameErrorRaised
  | reRaised
deriving DecidableEq, Repr

/-- The exception path of `spool` (`src/pasta/pty.py` lines 503-531 under
contextlib generator semantics): `restoreBound` says whether the local
`restore` was assigned before the `yield` (echo branch taken, lines
315-322) and `restoreVal` its value there. Returns the teardown steps
performed in order and what the caller observes. -/
def spoolExcPath (restoreBound restoreVal : Bool) : List TDStep × SpoolOutcome :=
  let caught := [TDStep.killChild, TDStep.waitChild]
  if restoreBound then
    if restoreVal then
      (caught ++ [TDStep.restoreStdin, TDStep.closePts, TDStep.closePtm],
       SpoolOutcome.suppressed)
    else
      (caught ++ [TDStep.closePts, TDStep.closePtm], SpoolOutcome.suppressed)
  else
    (caught, SpoolOutcome.nameErrorRaised)

/-- Counterexample for C4 as stated: on the exception path (here with the
`restore` flag bound and true) the original exception is NOT re-raised to
the caller — the generator swallows it and the context manager suppresses
it — and no step restores the SIGWINCH handler. -/
theorem spool_exception_not_reraised :
    (spoolExcPath true true).2 ≠ SpoolOutcome.reRaised ∧
    TDStep.restoreSigwinch ∉ (spoolExcPath true true).1 ∧
    (spoolExcPath true true).1 =
      [TDStep.killChild, TDStep.waitChild, TDStep.restoreStdin,
       TDStep.closePts, TDStep.closePtm] := by
  refine ⟨?_, ?_, ?_⟩ <;> decide

/-- Claim C4 (amended): if the caller's block or the loop body raises
inside the spool scope, the child is killed and the `finally` teardown
runs (wait for the child, restore real stdin when the `restore` flag was
set, close the pty slave then master); the prior SIGWINCH handler is
never restored, and the exception is never re-raised to the caller of
`spool`: it is suppressed by the context manager (or, when the `restore`
local was never bound, a `NameError` escapes instead). -/
theorem spool_exception_teardown (rb rv : Bool) :
    TDStep.killChild ∈ (spoolExcPath rb rv).1 ∧
    TDStep.waitChild ∈ (spoolExcPath rb rv).1 ∧
    TDStep.restoreSigwinch ∉ (spoolExcPath rb rv).1 ∧
    (spoolExcPath rb rv).2 ≠ SpoolOutcome.reRaised := by
  cases rb <;> cases rv <;> refine ⟨?_, ?_, ?_, ?_⟩ <;> decide

/-! ### C6 — the real stdin termios round-trip

`src/pasta/pty.py`: `mode = termios.tcgetattr(stdin_fd)` is captured at
line 313, before the `yield`; raw mode is entered only after the caller's
block returns (lines 386-392, setting `restore = True` on success and
`restore = False` when `tty.setraw` raises); the `finally` block at lines
522-528 runs `termios.tcsetattr(stdin_fd, TCSAFLUSH, mode)` when
`restore` is true. Nothing else in `spool` writes the real stdin
attributes (the echo branch at lines 315-322 writes the pts attributes,
not stdin). -/

/-- The mutable state we track: the real stdin termios attributes,
abstracted to a single value. -/
structure TermiosWorld where
  stdinAttrs : Nat
deriving DecidableEq, Repr

/-- The exit paths of the spool scope. -/
inductive ExitPath where
  | normal
  | callerRaised
  | loopRaised
  | keyboardInterrupt
deriving DecidableEq, Repr

/-- The real stdin termios across one `spool` scope
(`src/pasta/pty.py` lines 313, 386-392, 503-528). `raw` is the (arbitrary)
attribute transform performed by `tty.setraw`; `rb`/`rv` model the
`restore` local from the echo branch (see `spoolExcPath`); `setrawOk`
models whether `tty.setraw` succeeded on the resumed path. On the
`callerRaised` path raw mode was never entered and the `finally` restores
`mode` only when `restore` was bound and true (when unbound, `NameError`
fires before any write to stdin). On the other paths `restore` equals
`setrawOk` when the `finally` runs. -/
def spoolStdinFlow (w : TermiosWorld) (raw : Nat → Nat) (path : ExitPath)
    (rb rv setrawOk : Bool) : TermiosWorld :=
  let mode := w.stdinAttrs
  match path with
  | .callerRaised =>
    if rb && rv then { stdinAttrs := mode } else w
  | _ =>
    let w1 := if setrawOk then { stdinAttrs := raw w.stdinAttrs } else w
    if setrawOk then { stdinAttrs := mode } else w1

/-- Claim C6: on every exit path of the spool scope — normal completion,
exception from the caller's block, exception from the loop, keyboard
interrupt — and whatever raw-mode transform, echo-branch history and
setraw success, the real stdin termios after `spool` equals the value
observed before entering the scope. -/
theorem spool_stdin_attrs_restored (w : TermiosWorld) (raw : Nat → Nat)
    (path : ExitPath) (rb rv setrawOk : Bool) :
    (spoolStdinFlow w raw path rb rv setrawOk).stdinAttrs = w.stdinAttrs := by
  cases path <;> simp only [spoolStdinFlow] <;> split_ifs <;> rfl

/-! ### C8 — the `--log-backups` CLI option

`src/pasta/cmd.py` lines 99-112 apply the top-level options to the
configuration. Line 111-112 reads
`if log_backups is not None: conf.logging.directory = log_backups` —
it assigns the integer to `logging.directory`, not to `logging.backups`
(compare lines 108-109, which correctly assign `log_max_size` to
`conf.logging.max_size`). -/

/-- The value stored in `conf.logging.directory`: a path string, or the
integer the bug stores there (pydantic does not validate on assignment,
so the int sticks). -/
inductive DirValue where
  | path (s : String)
  | int (n : Int)
deriving DecidableEq, Repr

/-- `LogConfig` of `src/pasta/config.py` lines 21-33 (defaults: level
`logging.INFO` = 20, `max_size` 2048, `backups` 3). -/
structure LogConfig where
  level : Nat
  directory : DirValue
  max_size : Int
  backups : Int
deriving DecidableEq, Repr

/-- The default `LogConfig` (`src/pasta/config.py` lines 21-33). -/
def defaultLogConfig : LogConfig :=
  { level := 20
    directory := DirValue.path "$XDG_STATE_HOME/pasta"
    max_size := 2048
    backups := 3 }

/-- The option application of the `root` command, `src/pasta/cmd.py`
lines 99-112 (`log_level` arrives already lowercased by the
`match log_level.lower()`). -/
def applyRootOptions (conf : LogConfig) (log_level : String)
    (log_dir : Option String) (log_max_size : Option Int)
    (log_backups : Option Int) : LogConfig :=
  let conf :=
    if log_level = "info" then { conf with level := 20 }
    else if log_level = "debug" then { conf with level := 10 }
    else conf
  let conf :=
    match log_dir with
    | some d => { conf with directory := DirValue.path d }
    | none => conf
  let conf :=
    match log_max_size with
    | some m => { conf with max_size := m }
    | none => conf
  match log_backups with
  | some n => { conf with directory := DirValue.int n }
  | none => conf

/-- Claim C8 (code bug): invoking the CLI with `--log-backups 5` leaves
`logging.backups` at its default 3 and overwrites `logging.directory`
with the integer 5 — the opposite of the claim, which expects
`backups = 5` and the directory unchanged. -/
theorem cli_log_backups_misassigned :
    (applyRootOptions defaultLogConfig "info" none none (some 5)).backups = 3 ∧
    (applyRootOptions defaultLogConfig "info" none none (some 5)).directory =
      DirValue.int 5 ∧
    (applyRootOptions defaultLogConfig "info" none none (some 5)).directory ≠
      defaultLogConfig.directory := by
  refine ⟨?_, ?_, ?_⟩ <;> decide

/-! ### C10 — `State.pop` of `src/pasta/sessions.py` -/

/-- `Session` of `src/pasta/sessions.py` lines 9-18 (the uuid abstracted
to a `Nat`). -/
structure Session where
  id : Nat
deriving DecidableEq, Repr

/-- `State.pop` (`src/pasta/sessions.py` lines 30-31):
`return self.pop()` — the method unconditionally calls itself with the
state unchanged. The `Nat` fuel models Python's bounded call stack; no
amount of fuel ever produces a `Session` (and the sessions list is never
modified, since the returned `none` carries no new state). -/
def statePop : Nat → List Session → Option (Session × List Session)
  | 0, _ => none
  | fuel + 1, sessions => statePop fuel sessions

/-- Claim C10: `State.pop` never returns: for every stack and any amount
of fuel (recursion depth), the self-call recurses without progress and no
`Session` is ever produced — so no caller can remove a Session from the
stack via `pop`. -/
theorem statePop_never_returns (fuel : Nat) (sessions : List Session) :
    statePop fuel sessions = none := by
  induction fuel with
  | zero => rfl
  | succ n ih => exact ih

end Pasta
